import Mathlib

/-!
Verification development for the iconfig hierarchical configuration library.

The definitions below are a shallow embedding of the Python sources:
  * `src/iconfig/keyindex.py` — the `KeyIndex` engine (`_find`, `add`,
    `_update`, `_build`, `_index_config`),
  * `src/iconfig/iconfig.py` — the `iConfig` facade (`get`, `set`, `reload`,
    `expand_env`, `_lookup`, `_update_nested`, `_get_nested`, `_set_nested`),
  * `src/iconfig/utils.py` — `get_key_path` and the environment handling.

Python dictionaries are modelled as association lists (first binding wins,
as in insertion-ordered dicts without duplicate keys), Python `None`-vs-value
returns as `Option`, and raised exceptions as `Except` errors carrying the
raised message.  Environment-variable string expansion (`os.path.expandvars`)
and the YAML codec are external collaborators and are abstracted as function
parameters.
-/

/-- An index entry, mirroring the dict built in `KeyIndex.add`
(keys `level`, `depth`, `dict_ref`, `path`). -/
structure Entry where
  level : Int
  depth : Int
  dict_ref : String
  path : List String
deriving DecidableEq, Repr

/-- The `path` argument of `_find`/`get`: Python `None`, a string, or a list
of strings (a tuple of positional segments is modelled as a list). -/
inductive PathArg where
  | null
  | str (s : String)
  | list (l : List String)
deriving DecidableEq, Repr

/-- The key index `KeyIndex._index`, a dict from key to its entry list. -/
abbrev Index := List (String × List Entry)

/-- Python dict lookup `d[k]` / `k in d` on an association list
(first binding wins). -/
def lookupKV {α : Type} : List (String × α) → String → Option α
  | [], _ => Option.none
  | (k, v) :: rest, key => if key = k then some v else lookupKV rest key

/-- Python dict assignment `d[k] = v` when `k` may already be present:
replace the existing binding in place, else append (insertion order). -/
def updateKV {α : Type} : List (String × α) → String → α → List (String × α)
  | [], key, nv => [(key, nv)]
  | (k, v) :: rest, key, nv =>
      if k = key then (k, nv) :: rest else (k, v) :: updateKV rest key nv

/-- Python truthiness of the `path` argument (`if path:`):
`None`, the empty string and the empty list/tuple are falsy. -/
def pathTruthy : PathArg → Bool
  | .null => false
  | .str s => !s.isEmpty
  | .list l => !l.isEmpty

/-- `isinstance(path, str)` coercion used inside `get_key_path`
(`path = [path]`) and implicitly for lists. -/
def pathAsList : PathArg → List String
  | .null => []
  | .str s => [s]
  | .list l => l

/-- Python's substring test `c in s` for a one-character needle. -/
def containsChar (c : Char) (s : String) : Bool :=
  s.toList.contains c

/-- Helper for `splitOnChar`, recursing over the character list. -/
def splitCharList (c : Char) : List Char → List (List Char)
  | [] => [[]]
  | x :: xs =>
      let r := splitCharList c xs
      if x = c then [] :: r
      else
        match r with
        | [] => [[x]]
        | y :: ys => (x :: y) :: ys

/-- Python's `s.split(sep)` for a one-character separator (the source only
splits on "." and "/"): `"a.b".split(".") = ["a", "b"]`, `"".split(".") = [""]`. -/
def splitOnChar (c : Char) (s : String) : List String :=
  (splitCharList c s.toList).map (fun l => String.mk l)

/-- `utils.get_key_path`: if the key contains the separator ".", the last
segment becomes the effective key and the earlier segments are prepended
before any caller-supplied path filter. -/
def getKeyPath (key : String) (path : PathArg) : String × PathArg :=
  if containsChar '.' key then
    let parts := splitOnChar '.' key
    let key' := parts.getLastD ""
    let pathParts := parts.dropLast
    let newPath : List String :=
      if pathTruthy path then pathParts ++ pathAsList path else pathParts
    (key', .list newPath)
  else (key, path)

/-- Errors raised by `_find` and the facade: `KeyError(msg)`, the
`ValueError` of `max()`/`min()` on an empty sequence, and the
`RuntimeError` wrapper of `_lookup`/`_update_nested`. -/
inductive FindError where
  | keyError (msg : String)
  | valueError (msg : String)
  | runtimeError (msg : String)
deriving DecidableEq, Repr

/-- The non-raising outcomes of `_find`: Python `None`, a single entry dict,
or (with `return_all`) a list of entries. -/
inductive FindOk where
  | noneFound
  | entry (e : Entry)
  | entries (es : List Entry)
deriving DecidableEq, Repr

/-- Message of `KeyError(f"Key '{key}' with depth '{depth}' not found")`. -/
def depthNotFoundMsg (key : String) (depth : Int) : String :=
  "Key '" ++ key ++ "' with depth '" ++ toString depth ++ "' not found"

/-- Message actually raised on ambiguity:
`KeyError(f"Ambiguous key '{key}': {length} entries at same level/depth")`. -/
def ambiguousRaisedMsg (key : String) (n : Nat) : String :=
  "Ambiguous key '" ++ key ++ "': " ++ toString n ++ " entries at same level/depth"

/-- The message assembled into the local variable `msg` in `_find`
(header plus one line per tied entry with its path joined by "/").
The source builds this string and then discards it: the raise uses
`ambiguousRaisedMsg` instead. -/
def ambiguousBuiltMsg (key : String) (entries : List Entry) : String :=
  entries.foldl (fun m e => m ++ "\n" ++ String.intercalate "/" e.path)
    ("Ambiguous key '" ++ key ++ "': " ++ toString entries.length
      ++ " entries at same level/depth:")

/-- `max(e[Labels.LEVEL] for e in entries)`; the `[]` case is Python's
`ValueError` (armoured by a match at the call site). -/
def maxLevel : List Entry → Int
  | [] => 0
  | e :: rest => rest.foldl (fun m x => max m x.level) e.level

/-- `min(e[Labels.DEPTH] for e in entries)`; the `[]` case is Python's
`ValueError` (armoured by a match at the call site). -/
def minDepth : List Entry → Int
  | [] => 0
  | e :: rest => rest.foldl (fun m x => min m x.depth) e.depth

/-- Splitting a string `path` filter inside `_find`: split on "/" when it
contains one, else wrap as a one-segment list; list filters pass through. -/
def splitPathArg : PathArg → List String
  | .null => []
  | .str s => if containsChar '/' s then splitOnChar '/' s else [s]
  | .list l => l

/-- The path filter body: retain entries whose recorded path contains every
filter segment (`all(p in e[Labels.PATH] for p in path)`). -/
def pathFilter (segs : List String) (es : List Entry) : List Entry :=
  es.filter (fun e => segs.all (fun p => e.path.contains p))

/-- The path-filter stage of `_find`: when the filter is truthy, keep matching
entries and signal `None` (silent NotFound) when none remain. -/
def pathStage (path : PathArg) (es : List Entry) : Option (List Entry) :=
  if pathTruthy path then
    let fes := pathFilter (splitPathArg path) es
    if fes.isEmpty then Option.none else some fes
  else some es

/-- The level stage of `_find`: an explicit `level >= 0` filters by equality
(`None` if nothing remains); otherwise the maximum level wins. -/
def levelStage (level : Int) (es : List Entry) :
    Except FindError (Option (List Entry)) :=
  if level ≥ 0 then
    let f := es.filter (fun e => e.level == level)
    if f.isEmpty then .ok Option.none else .ok (some f)
  else
    match es with
    | [] => .error (.valueError "max() arg is an empty sequence")
    | e :: rest =>
        .ok (some ((e :: rest).filter (fun x => x.level == maxLevel (e :: rest))))

/-- The depth stage of `_find`: an explicit `depth >= 0` filters by equality
and RAISES `KeyError` when nothing remains; otherwise the minimum depth wins. -/
def depthStage (key : String) (depth : Int) (es : List Entry) :
    Except FindError (List Entry) :=
  if depth ≥ 0 then
    let f := es.filter (fun e => e.depth == depth)
    if f.isEmpty then .error (.keyError (depthNotFoundMsg key depth)) else .ok f
  else
    match es with
    | [] => .error (.valueError "min() arg is an empty sequence")
    | e :: rest =>
        .ok ((e :: rest).filter (fun x => x.depth == minDepth (e :: rest)))

/-- Final disambiguation of `_find`: a unique entry is returned; `forcefirst`
takes the first of a non-empty tie; `return_all` returns the whole list;
otherwise `KeyError` is raised.  The enumerating message `_msg` is assembled
exactly as in the source and, exactly as in the source, not used in the raise. -/
def finishFind (key : String) (entries : List Entry)
    (forcefirst return_all : Bool) : Except FindError FindOk :=
  match entries with
  | [e] => .ok (.entry e)
  | e :: rest =>
      if forcefirst then .ok (.entry e)
      else if return_all then .ok (.entries (e :: rest))
      else
        let _msg := ambiguousBuiltMsg key (e :: rest)
        .error (.keyError (ambiguousRaisedMsg key (e :: rest).length))
  | [] =>
      -- unreachable in the source (the depth stage never yields an empty
      -- list), kept for totality: `forcefirst and entries` is falsy on [].
      if return_all then .ok (.entries [])
      else
        let _msg := ambiguousBuiltMsg key []
        .error (.keyError (ambiguousRaisedMsg key 0))

/-- `KeyIndex._find`: key normalization, then the fixed pipeline
path filter → level filter → depth filter → final disambiguation. -/
def find (index : Index) (key0 : String) (path0 : PathArg)
    (level depth : Int) (forcefirst return_all : Bool) :
    Except FindError FindOk :=
  match lookupKV index (getKeyPath key0 path0).1 with
  | Option.none => .ok .noneFound
  | some entries0 =>
    match pathStage (getKeyPath key0 path0).2 entries0 with
    | Option.none => .ok .noneFound
    | some entries1 =>
      match levelStage level entries1 with
      | .error err => .error err
      | .ok Option.none => .ok .noneFound
      | .ok (some entries2) =>
        match depthStage (getKeyPath key0 path0).1 depth entries2 with
        | .error err => .error err
        | .ok entries3 =>
            finishFind (getKeyPath key0 path0).1 entries3 forcefirst return_all

/-- Decidable equality of resolver results, for evaluating the model on
concrete inputs. -/
instance {ε α : Type} [DecidableEq ε] [DecidableEq α] : DecidableEq (Except ε α) :=
  fun a b =>
    match a, b with
    | .error x, .error y =>
        if h : x = y then .isTrue (by rw [h])
        else .isFalse (by intro hc; cases hc; exact h rfl)
    | .ok x, .ok y =>
        if h : x = y then .isTrue (by rw [h])
        else .isFalse (by intro hc; cases hc; exact h rfl)
    | .error _, .ok _ => .isFalse (by intro hc; cases hc)
    | .ok _, .error _ => .isFalse (by intro hc; cases hc)

/-- C1 witness: `debug` appears at levels 0 and 1; the level-1, depth-0
entry wins by the default max-level / min-depth rule. -/
def c1Entries : List Entry :=
  [⟨0, 0, "root.yaml", []⟩, ⟨1, 0, "sub/a.yaml", []⟩, ⟨1, 2, "sub/a.yaml", ["x", "y"]⟩]

/-- Index fixture for the C1 witness. -/
def c1Index : Index := [("debug", c1Entries)]

/-- The ambiguity fixture: two `port` entries tied at the same level and
depth (under `database` and `server`), as in the spec's testable property. -/
def ambiguityEntries : List Entry :=
  [⟨0, 1, "database.yaml", ["database"]⟩, ⟨0, 1, "server.yaml", ["server"]⟩]

/-- Index holding the ambiguity fixture under key `port`. -/
def ambiguityIndex : Index := [("port", ambiguityEntries)]

/-- The `path` parameter of `KeyIndex.add`: `str | list[str]`. -/
inductive StrOrList where
  | str (s : String)
  | list (l : List String)
deriving DecidableEq, Repr

/-- `KeyIndex._is_same_entry`: agreement on all four of level, depth,
dict_ref and path. -/
def isSameEntry (entry1 entry2 : Entry) : Bool :=
  entry1.level == entry2.level && entry1.depth == entry2.depth
    && entry1.dict_ref == entry2.dict_ref && entry1.path == entry2.path

/-- `KeyIndex.has_entry`: linear scan with `_is_same_entry`. -/
def hasEntry (entry : Entry) (list_of_entries : List Entry) : Bool :=
  list_of_entries.any (fun e => isSameEntry entry e)

/-- The new entry dict built at the top of `KeyIndex.add` (a string path
becomes a one-element list, a list path is copied into a new list). -/
def mkEntry (level depth : Int) (dict_ref : String) (path : StrOrList) : Entry :=
  { level := level, depth := depth, dict_ref := dict_ref,
    path := match path with | .str s => [s] | .list l => l }

/-- `KeyIndex.add`: insert the new entry — creating the key's list when the
key is absent, else appending unless an identical entry is already present. -/
def add (index : Index) (key : String) (level depth : Int) (dict_ref : String)
    (path : StrOrList) : Index :=
  match lookupKV index key with
  | Option.none => index ++ [(key, [mkEntry level depth dict_ref path])]
  | some es =>
      if hasEntry (mkEntry level depth dict_ref path) es then index
      else updateKV index key (es ++ [mkEntry level depth dict_ref path])

/-- One call to `KeyIndex.add`, with its arguments. -/
structure AddOp where
  key : String
  level : Int
  depth : Int
  dict_ref : String
  path : StrOrList
deriving DecidableEq, Repr

/-- A sequence of `add` operations applied to an index. -/
def addAll (index : Index) (ops : List AddOp) : Index :=
  ops.foldl (fun i op => add i op.key op.level op.depth op.dict_ref op.path) index

/-- The per-key no-duplicate invariant of the index: no two entries of one
key agree on all four of (level, depth, dict_ref, path). -/
def NoDupEntries (idx : Index) : Prop :=
  ∀ k es, lookupKV idx k = some es →
    es.Pairwise (fun a b => isSameEntry a b = false)

/-- A parsed document value: the nested structure the YAML codec (an
external collaborator) yields — scalars, sequences and string-keyed
mappings. -/
inductive Value where
  | null
  | bool (b : Bool)
  | int (n : Int)
  | str (s : String)
  | list (xs : List Value)
  | dict (kvs : List (String × Value))

/-- A parsed document: the top-level mapping of one configuration file. -/
abbrev Doc := List (String × Value)

mutual

/-- `iConfig.expand_env` with `os.path.expandvars` (an external collaborator,
excluded from the core) abstracted as the string function `ev`: strings are
expanded, sequences and mappings recurse, other scalars pass through. -/
def expandEnv (ev : String → String) : Value → Value
  | .str s => .str (ev s)
  | .list xs => .list (expandEnvList ev xs)
  | .dict kvs => .dict (expandEnvDict ev kvs)
  | v => v

def expandEnvList (ev : String → String) : List Value → List Value
  | [] => []
  | x :: xs => expandEnv ev x :: expandEnvList ev xs

def expandEnvDict (ev : String → String) :
    List (String × Value) → List (String × Value)
  | [] => []
  | (k, v) :: rest => (k, expandEnv ev v) :: expandEnvDict ev rest
end

/-- `iConfig._get_nested`: walk the document along `path`.  A missing
segment falls through unchanged — the source's `else: None` is an
expression statement, not an assignment — and a non-mapping current value
(where Python's `in` would fail) cannot arise for indexed entries. -/
def getNested (data : Value) : List String → Value
  | [] => data
  | p :: ps =>
      match data with
      | .dict kvs =>
          match lookupKV kvs p with
          | some v => getNested v ps
          | Option.none => getNested data ps
      | other => getNested other ps

/-- `iConfig._set_nested`: walk/create the nested path (a missing or
non-mapping intermediate segment is replaced by an empty mapping:
`current[p] = {}`) and assign `value` at `key` in the final mapping. -/
def setNested (data : Doc) : List String → String → Value → Doc
  | [], key, value => updateKV data key value
  | p :: ps, key, value =>
      let sub : Doc :=
        match lookupKV data p with
        | some (Value.dict kvs) => kvs
        | _ => []
      updateKV data p (.dict (setNested sub ps key value))

/-- A file record from `utils.discover_config_files`: absolute path,
modification time (compared only for equality, so modelled as an integer)
and the directory-derived hierarchy level, keyed by `dict_ref`. -/
structure FileInfo where
  file_path : String
  mtime : Int
  level : Int
deriving DecidableEq, Repr

/-- The filesystem as the engine observes it: the parsed document of each
readable `dict_ref` (a file that fails to load is simply absent), the
discovery metadata (with the sidecar index file already excluded, as the
source pops it), and the persisted sidecar content — `none` when the
sidecar file is missing or unparsable. -/
structure FS where
  docs : List (String × Doc)
  meta : List (String × FileInfo)
  sidecar : Option (Index × List (String × FileInfo))

/-- The state of a `KeyIndex`: `_index` and `_files`. -/
structure KIState where
  index : Index
  files : List (String × FileInfo)

/-- Python `set(a) != set(b)` negated: mutual containment of key lists. -/
def sameKeySet (a b : List String) : Bool :=
  a.all (fun r => b.contains r) && b.all (fun r => a.contains r)

/-- The freshness check of `KeyIndex._update`: rebuild when some discovered
dict_ref is new, some shared dict_ref changed its mtime, or the dict_ref
sets differ (covering deletions). -/
def needsRebuild (persisted discovered : List (String × FileInfo)) : Bool :=
  discovered.any (fun x =>
    match lookupKV persisted x.1 with
    | Option.none => true
    | some pfi => pfi.mtime != x.2.mtime)
  || !(sameKeySet (persisted.map Prod.fst) (discovered.map Prod.fst))

/-- The recursive walk of `KeyIndex._index_config`: every key of the current
mapping is `add`ed with the file's level and the current ancestor path
(depth = path length), and mapping values are recursed into with the path
extended by their key. -/
def indexDoc : Index → String → Int → List String → Doc → Index
  | idx, _, _, _, [] => idx
  | idx, r, lvl, cp, (k, Value.dict kvs) :: rest =>
      indexDoc
        (indexDoc (add idx k lvl (cp.length : Int) r (StrOrList.list cp))
          r lvl (cp ++ [k]) kvs)
        r lvl cp rest
  | idx, r, lvl, cp, (k, _) :: rest =>
      indexDoc (add idx k lvl (cp.length : Int) r (StrOrList.list cp)) r lvl cp rest

/-- `KeyIndex._build` over the abstract filesystem: index every loadable,
non-empty document in discovery order (a load failure only skips that file;
`if cfg:` skips empty or null documents).  The persisting `_save` call
writes the sidecar and is outside this model's observations. -/
def kiBuild (fs : FS) : KIState :=
  { files := fs.meta,
    index := fs.meta.foldl (fun idx p =>
      match lookupKV fs.docs p.1 with
      | some doc => if doc.isEmpty then idx else indexDoc idx p.1 p.2.level [] doc
      | Option.none => idx) [] }

/-- `KeyIndex._update`: rebuild when the freshness check demands it,
otherwise leave the persisted state untouched — no partial repair. -/
def kiUpdate (st : KIState) (fs : FS) : KIState :=
  if needsRebuild st.files fs.meta then kiBuild fs else st

/-- `KeyIndex._load`: a missing or corrupt sidecar forces a build; otherwise
the persisted index and files are adopted and `_update` is run. -/
def kiLoad (fs : FS) : KIState :=
  match fs.sidecar with
  | Option.none => kiBuild fs
  | some persisted => kiUpdate ⟨persisted.1, persisted.2⟩ fs

/-- The state of an `iConfig` facade: the filesystem it reads, the KeyIndex
it constructed, and the in-memory document cache `_cfg`. -/
structure ConfigState where
  fs : FS
  ki : KIState
  cfg : List (String × Doc)

/-- `KeyIndex.get`: normalize the key/path and delegate to `_find` with
`return_all=False`. -/
def kiGet (index : Index) (key : String) (path : PathArg) (level depth : Int)
    (forcefirst : Bool) : Except FindError FindOk :=
  find index (getKeyPath key path).1 (getKeyPath key path).2 level depth
    forcefirst false

/-- `utils._load_config` via the files registry, as wrapped by the facade:
resolve the dict_ref to its parsed document; a missing or unreadable file
surfaces as the facade's `RuntimeError`. -/
def loadConfig (docs : List (String × Doc)) (dict_ref : String) :
    Except FindError Doc :=
  match lookupKV docs dict_ref with
  | some d => .ok d
  | Option.none => .error (.runtimeError ("Failed to load config for " ++ dict_ref))

/-- The value computation of `iConfig._lookup` once the owning document is
at hand: descend along the entry's path and return the expanded value at
`key` if present in the reached mapping, else the expanded `default`. -/
def lookupIn (ev : String → String) (key : String) (e : Entry) (doc : Doc)
    (default : Value) : Value :=
  match getNested (.dict doc) e.path with
  | .dict kvs =>
      match lookupKV kvs key with
      | some v => expandEnv ev v
      | Option.none => expandEnv ev default
  | _ => expandEnv ev default

/-- `iConfig._lookup`: lazily load and cache the owning document
(`self._cfg[dict_ref] = _load_config(...)`), then compute the value. -/
def lookupValue (st : ConfigState) (ev : String → String) (key : String)
    (e : Entry) (default : Value) : Except FindError (Value × ConfigState) :=
  match lookupKV st.cfg e.dict_ref with
  | some doc => .ok (lookupIn ev key e doc default, st)
  | Option.none =>
      match loadConfig st.fs.docs e.dict_ref with
      | .error err => .error err
      | .ok doc =>
          .ok (lookupIn ev key e doc default,
               { st with cfg := updateKV st.cfg e.dict_ref doc })

/-- `iConfig.get`: normalize, resolve through `KeyIndex.get`, return the
caller's `default` unchanged on the falsy `None` result, else `_lookup`.
A non-empty entries list cannot arise with `return_all=False`; Python's
`_lookup` would fail on one with a `TypeError`. -/
def iConfigGet (st : ConfigState) (ev : String → String) (key0 : String)
    (path0 : PathArg) (level depth : Int) (forcefirst : Bool) (default : Value) :
    Except FindError (Value × ConfigState) :=
  match kiGet st.ki.index (getKeyPath key0 path0).1 (getKeyPath key0 path0).2
      level depth forcefirst with
  | .error err => .error err
  | .ok FindOk.noneFound => .ok (default, st)
  | .ok (FindOk.entry e) => lookupValue st ev (getKeyPath key0 path0).1 e default
  | .ok (FindOk.entries []) => .ok (default, st)
  | .ok (FindOk.entries (_ :: _)) =>
      .error (.runtimeError "TypeError: list indices must be integers")

/-- `iConfig._update_nested`: lazily load/cache the owning document, then
`_set_nested` into the cached copy — only `_cfg` changes, never the
filesystem. -/
def updateNested (st : ConfigState) (key : String) (e : Entry) (value : Value) :
    Except FindError ConfigState :=
  match lookupKV st.cfg e.dict_ref with
  | some doc =>
      .ok { st with
            cfg := updateKV st.cfg e.dict_ref (setNested doc e.path key value) }
  | Option.none =>
      match loadConfig st.fs.docs e.dict_ref with
      | .error err => .error err
      | .ok doc =>
          .ok { st with
                cfg := updateKV st.cfg e.dict_ref (setNested doc e.path key value) }

/-- `iConfig.set`: resolve like `get`; the falsy `None` result is a silent
no-op; on a match, mutate the in-memory cache via `_update_nested`. -/
def iConfigSet (st : ConfigState) (key0 : String) (path0 : PathArg)
    (level depth : Int) (forcefirst : Bool) (value : Value) :
    Except FindError ConfigState :=
  match kiGet st.ki.index (getKeyPath key0 path0).1 (getKeyPath key0 path0).2
      level depth forcefirst with
  | .error err => .error err
  | .ok FindOk.noneFound => .ok st
  | .ok (FindOk.entry e) => updateNested st (getKeyPath key0 path0).1 e value
  | .ok (FindOk.entries []) => .ok st
  | .ok (FindOk.entries (_ :: _)) =>
      .error (.runtimeError "TypeError: list indices must be integers")

/-- `iConfig.reload` (default `force_rebuild=False`): construct a fresh
`KeyIndex` over the same filesystem and clear the document cache. -/
def reload (st : ConfigState) : ConfigState :=
  { fs := st.fs, ki := kiLoad st.fs, cfg := [] }

/-- The base-directory resolution of `iConfig.__init__`:
`os.getenv("INCONFIG_HOME", "config")`. -/
def facadeBase (env : String → Option String) : String :=
  (env "INCONFIG_HOME").getD "config"

/-- The error message of `iConfig.__init__` (two adjacent f-strings,
concatenated without a separating space in the source). -/
def initErrorMsg (base : String) : String :=
  "Configuration base directory '" ++ base ++ "' does not exist."
    ++ "Please set the INCONFIG_HOME environment variable to a valid path."

/-- The existence gate of `iConfig.__init__`: resolve the base directory
and fail iff it does not exist. -/
def iConfigInitBase (env : String → Option String) (pathExists : String → Bool) :
    Except String String :=
  let base := facadeBase env
  if pathExists base then .ok base else .error (initErrorMsg base)

/-- The base-directory resolution of `KeyIndex.__init__`: an explicit
`config_home` wins, else `os.getenv("ICONFIG_HOME")`, else "config". -/
def kiBase (config_home : Option String) (env : String → Option String) : String :=
  match config_home with
  | some h => h
  | Option.none =>
      match env "ICONFIG_HOME" with
      | some b => b
      | Option.none => "config"

/-- Concrete add sequence with a duplicate insertion (C5 witness). -/
def c5Ops : List AddOp :=
  [⟨"a", 0, 0, "f.yaml", .list ["p"]⟩,
   ⟨"a", 0, 0, "f.yaml", .str "p"⟩,
   ⟨"a", 1, 0, "f.yaml", .list ["p"]⟩]

/-- A facade state whose index is empty (C4 counterexample fixture). -/
def c4State : ConfigState :=
  { fs := { docs := [], meta := [], sidecar := Option.none },
    ki := { index := [], files := [] },
    cfg := [] }

/-- A realizable expander: with HOME=/home/user in the process environment,
`os.path.expandvars` rewrites the string "$HOME" exactly like this. -/
def c4Expand : String → String :=
  fun s => if s = "$HOME" then "/home/user" else s

/-- Filesystem fixture for the C6 witness. -/
def c6FS : FS :=
  { docs := [("a.yaml", [("host", Value.str "localhost")])],
    meta := [("a.yaml", ⟨"/cfg/a.yaml", 100, 0⟩)],
    sidecar := Option.none }

/-- Facade state for the C6 witness: one file defining `host` at the root. -/
def c6State : ConfigState :=
  { fs := c6FS,
    ki := { index := [("host", [⟨0, 0, "a.yaml", []⟩])],
            files := [("a.yaml", ⟨"/cfg/a.yaml", 100, 0⟩)] },
    cfg := [] }

/-- The state after `set('host', value=42)` on the C6 fixture: only the
cache differs. -/
def c6StateAfter : ConfigState :=
  { c6State with cfg := [("a.yaml", [("host", Value.int 42)])] }

/-- An environment with no variables set (C9 fixture). -/
def envUnset : String → Option String := fun _ => Option.none

/-- An existence oracle where only the default "config" directory exists
(C9 fixture). -/
def existsOnlyConfig : String → Bool := fun s => s == "config"

/-- The environment of C10: only INCONFIG_HOME is set, to "mydir". -/
def envOnlyInconfig : String → Option String :=
  fun s => if s = "INCONFIG_HOME" then some "mydir" else Option.none

/-- The fold computing Python's `max()` over entry levels either keeps its
seed or returns the level of some list element. -/
theorem foldlMax_attained (l : List Entry) (a : Int) :
    l.foldl (fun m x => max m x.level) a = a ∨
    ∃ x ∈ l, x.level = l.foldl (fun m x => max m x.level) a := by
  induction l generalizing a with
  | nil => exact Or.inl rfl
  | cons x xs ih =>
    simp only [List.foldl_cons]
    rcases ih (max a x.level) with h | ⟨y, hy, hy2⟩
    · rcases le_total x.level a with hle | hle
      · exact Or.inl (by rw [h, max_eq_left hle])
      · exact Or.inr ⟨x, List.mem_cons_self .., by rw [h, max_eq_right hle]⟩
    · exact Or.inr ⟨y, List.mem_cons_of_mem _ hy, hy2⟩

/-- `maxLevel` of a non-empty entry list is attained by some element. -/
theorem maxLevel_attained (e : Entry) (rest : List Entry) :
    ∃ x ∈ e :: rest, x.level = maxLevel (e :: rest) := by
  rcases foldlMax_attained rest e.level with h | ⟨y, hy, hy2⟩
  · exact ⟨e, List.mem_cons_self .., by rw [maxLevel, h]⟩
  · exact ⟨y, List.mem_cons_of_mem _ hy, by rw [maxLevel]; exact hy2⟩

/-- Filtering a non-empty entry list by its own maximum level keeps at least
one entry. -/
theorem filter_maxLevel_ne_nil (e : Entry) (rest : List Entry) :
    (e :: rest).filter (fun x => x.level == maxLevel (e :: rest)) ≠ [] := by
  obtain ⟨x, hx, hlev⟩ := maxLevel_attained e rest
  exact List.ne_nil_of_mem (List.mem_filter.mpr ⟨hx, by simp [hlev]⟩)

/-- When all four stages of `_find` succeed, the result is the final
disambiguation of the depth stage's output. -/
theorem find_eq_finish {index : Index} {key0 : String} {path0 : PathArg}
    {level depth : Int} {es0 es1 es2 es3 : List Entry} (ff ra : Bool)
    (hlk : lookupKV index (getKeyPath key0 path0).1 = some es0)
    (hps : pathStage (getKeyPath key0 path0).2 es0 = some es1)
    (hls : levelStage level es1 = .ok (some es2))
    (hds : depthStage (getKeyPath key0 path0).1 depth es2 = .ok es3) :
    find index key0 path0 level depth ff ra
      = finishFind (getKeyPath key0 path0).1 es3 ff ra := by
  unfold find
  rw [hlk]
  simp only
  rw [hps]
  simp only
  rw [hls]
  simp only
  rw [hds]

/-- A raising depth stage propagates as the raised error of `_find`. -/
theorem find_eq_err {index : Index} {key0 : String} {path0 : PathArg}
    {level depth : Int} {es0 es1 es2 : List Entry} {err : FindError} (ff ra : Bool)
    (hlk : lookupKV index (getKeyPath key0 path0).1 = some es0)
    (hps : pathStage (getKeyPath key0 path0).2 es0 = some es1)
    (hls : levelStage level es1 = .ok (some es2))
    (hds : depthStage (getKeyPath key0 path0).1 depth es2 = .error err) :
    find index key0 path0 level depth ff ra = .error err := by
  unfold find
  rw [hlk]
  simp only
  rw [hps]
  simp only
  rw [hls]
  simp only
  rw [hds]

/-- An empty path-filter result makes `_find` return the silent `None`. -/
theorem find_eq_none_of_pathStage_none {index : Index} {key0 : String}
    {path0 : PathArg} {es0 : List Entry} (level depth : Int) (ff ra : Bool)
    (hlk : lookupKV index (getKeyPath key0 path0).1 = some es0)
    (hps : pathStage (getKeyPath key0 path0).2 es0 = Option.none) :
    find index key0 path0 level depth ff ra = .ok .noneFound := by
  unfold find
  rw [hlk]
  simp only
  rw [hps]

/-- An empty explicit-level filter makes `_find` return the silent `None`. -/
theorem find_eq_none_of_levelStage_none {index : Index} {key0 : String}
    {path0 : PathArg} {level : Int} {es0 es1 : List Entry} (depth : Int) (ff ra : Bool)
    (hlk : lookupKV index (getKeyPath key0 path0).1 = some es0)
    (hps : pathStage (getKeyPath key0 path0).2 es0 = some es1)
    (hls : levelStage level es1 = .ok Option.none) :
    find index key0 path0 level depth ff ra = .ok .noneFound := by
  unfold find
  rw [hlk]
  simp only
  rw [hps]
  simp only
  rw [hls]

/-- C1: with no explicit level (`level < 0`) and no explicit depth
(`depth < 0`), for every key present in the index whose candidate set `es1`
survives the path filter, the resolver retains exactly the entries whose
level equals the maximum level among the candidates, then among those
exactly the entries whose depth equals the minimum depth, and when exactly
one entry remains it is returned. -/
theorem c1_default_level_depth_resolution
    (index : Index) (key0 : String) (path0 : PathArg)
    (level depth : Int) (ff ra : Bool) (es0 es1 : List Entry)
    (hlev : level < 0) (hdep : depth < 0)
    (hlk : lookupKV index (getKeyPath key0 path0).1 = some es0)
    (hps : pathStage (getKeyPath key0 path0).2 es0 = some es1)
    (hne : es1 ≠ []) :
    levelStage level es1
      = .ok (some (es1.filter (fun e => e.level == maxLevel es1)))
    ∧ depthStage (getKeyPath key0 path0).1 depth
        (es1.filter (fun e => e.level == maxLevel es1))
      = .ok ((es1.filter (fun e => e.level == maxLevel es1)).filter
             (fun e => e.depth
                == minDepth (es1.filter (fun e => e.level == maxLevel es1))))
    ∧ ∀ e : Entry,
        (es1.filter (fun x => x.level == maxLevel es1)).filter
            (fun x => x.depth
              == minDepth (es1.filter (fun x => x.level == maxLevel es1))) = [e] →
        find index key0 path0 level depth ff ra = Except.ok (FindOk.entry e) := by
  obtain ⟨c, cs, rfl⟩ := List.exists_cons_of_ne_nil hne
  have hls : levelStage level (c :: cs)
      = .ok (some ((c :: cs).filter (fun e => e.level == maxLevel (c :: cs)))) := by
    unfold levelStage
    rw [if_neg (not_le.mpr hlev)]
  obtain ⟨d, ds, hcons⟩ :=
    List.exists_cons_of_ne_nil (filter_maxLevel_ne_nil c cs)
  have hds : depthStage (getKeyPath key0 path0).1 depth
      ((c :: cs).filter (fun e => e.level == maxLevel (c :: cs)))
      = .ok (((c :: cs).filter (fun e => e.level == maxLevel (c :: cs))).filter
          (fun e => e.depth
            == minDepth ((c :: cs).filter (fun e => e.level == maxLevel (c :: cs))))) := by
    unfold depthStage
    rw [if_neg (not_le.mpr hdep), hcons]
  refine ⟨hls, hds, fun e he => ?_⟩
  rw [find_eq_finish ff ra hlk hps hls hds, he]
  rfl

/-- Witness for C1 at a concrete index. -/
theorem c1_default_level_depth_resolution_witness :
    find c1Index "debug" PathArg.null (-1) (-1) false false
      = Except.ok (FindOk.entry ⟨1, 0, "sub/a.yaml", []⟩) := by
  have h := c1_default_level_depth_resolution c1Index "debug" PathArg.null
      (-1) (-1) false false c1Entries c1Entries (by decide) (by decide)
      (by decide) (by decide) (by decide)
  exact h.2.2 _ (by decide)

/-- C2: an explicit non-negative depth filter that eliminates all remaining
candidates makes `_find` raise the `KeyError` "not found at this depth",
whereas an empty result after the path filter, or after an explicit
non-negative level filter, yields the silent `None` without raising. -/
theorem c2_depth_miss_raises_other_filters_silent
    (index : Index) (key0 : String) (path0 : PathArg)
    (level depth : Int) (ff ra : Bool) (es0 es1 es2 : List Entry)
    (hlk : lookupKV index (getKeyPath key0 path0).1 = some es0)
    (hps : pathStage (getKeyPath key0 path0).2 es0 = some es1)
    (hls : levelStage level es1 = .ok (some es2))
    (hdep : depth ≥ 0)
    (hempty : es2.filter (fun e => e.depth == depth) = []) :
    find index key0 path0 level depth ff ra
      = Except.error (FindError.keyError
          (depthNotFoundMsg (getKeyPath key0 path0).1 depth))
    ∧ (∀ (idx : Index) (k : String) (p : PathArg) (l d : Int) (f r : Bool)
         (es : List Entry),
        lookupKV idx (getKeyPath k p).1 = some es →
        pathStage (getKeyPath k p).2 es = Option.none →
        find idx k p l d f r = Except.ok FindOk.noneFound)
    ∧ (∀ (idx : Index) (k : String) (p : PathArg) (l d : Int) (f r : Bool)
         (es es' : List Entry),
        lookupKV idx (getKeyPath k p).1 = some es →
        pathStage (getKeyPath k p).2 es = some es' →
        levelStage l es' = .ok Option.none →
        find idx k p l d f r = Except.ok FindOk.noneFound) := by
  have hds : depthStage (getKeyPath key0 path0).1 depth es2
      = .error (.keyError (depthNotFoundMsg (getKeyPath key0 path0).1 depth)) := by
    unfold depthStage
    rw [if_pos hdep]
    simp only [hempty, List.isEmpty_nil, if_true]
  refine ⟨find_eq_err ff ra hlk hps hls hds, ?_, ?_⟩
  · exact fun idx k p l d f r es h1 h2 =>
      find_eq_none_of_pathStage_none l d f r h1 h2
  · exact fun idx k p l d f r es es' h1 h2 h3 =>
      find_eq_none_of_levelStage_none d f r h1 h2 h3

/-- Witness for C2: a single `k` entry at depth 0 and an explicit depth 1. -/
theorem c2_depth_miss_raises_other_filters_silent_witness :
    find [("k", [⟨0, 0, "f.yaml", []⟩])] "k" PathArg.null (-1) 1 false false
      = Except.error (FindError.keyError (depthNotFoundMsg "k" 1)) :=
  (c2_depth_miss_raises_other_filters_silent
      [("k", [⟨0, 0, "f.yaml", []⟩])] "k" PathArg.null (-1) 1 false false
      [⟨0, 0, "f.yaml", []⟩] [⟨0, 0, "f.yaml", []⟩] [⟨0, 0, "f.yaml", []⟩]
      (by decide) (by decide) (by decide) (by decide) (by decide)).1

/-- C3 (code bug): at the tied fixture `_find` raises the `KeyError`
"Ambiguous key 'port': 2 entries at same level/depth", which names the key
and the tie count but NOT the tied paths; the enumerating message (with
each path joined by "/") is assembled into the discarded local `msg`. -/
theorem c3_ambiguity_message_omits_tied_paths :
    find ambiguityIndex "port" PathArg.null (-1) (-1) false false
      = Except.error (FindError.keyError (ambiguousRaisedMsg "port" 2))
    ∧ ambiguousRaisedMsg "port" 2
      = "Ambiguous key 'port': 2 entries at same level/depth"
    ∧ ¬ ("database".toList <:+: (ambiguousRaisedMsg "port" 2).toList)
    ∧ ¬ ("server".toList <:+: (ambiguousRaisedMsg "port" 2).toList)
    ∧ ("database".toList <:+: (ambiguousBuiltMsg "port" ambiguityEntries).toList)
    ∧ ("server".toList <:+: (ambiguousBuiltMsg "port" ambiguityEntries).toList) := by
  refine ⟨by decide, by decide, by decide, by decide, by decide, by decide⟩

/-- `_is_same_entry` is exact equality, since an entry consists of exactly
the four compared fields. -/
theorem isSameEntry_iff (a b : Entry) : isSameEntry a b = true ↔ a = b := by
  cases a; cases b
  simp [isSameEntry, Entry.mk.injEq, and_assoc]

/-- Lookup distributes over append: the left list wins. -/
theorem lookupKV_append {α : Type} (idx l : List (String × α)) (k : String) :
    lookupKV (idx ++ l) k
      = match lookupKV idx k with
        | some v => some v
        | Option.none => lookupKV l k := by
  induction idx with
  | nil => rfl
  | cons p rest ih =>
    obtain ⟨pk, pv⟩ := p
    by_cases hk : k = pk
    · simp [lookupKV, hk]
    · simp [lookupKV, hk, ih]

/-- Updating a present key makes lookup of that key return the new value. -/
theorem lookupKV_updateKV_self {α : Type} (idx : List (String × α)) (key : String)
    (nv v : α) (h : lookupKV idx key = some v) :
    lookupKV (updateKV idx key nv) key = some nv := by
  induction idx with
  | nil => cases h
  | cons p rest ih =>
    obtain ⟨pk, pv⟩ := p
    by_cases hk : pk = key
    · simp [updateKV, lookupKV, hk]
    · have hk' : ¬ key = pk := fun hc => hk hc.symm
      simp only [lookupKV, if_neg hk'] at h
      simp only [updateKV, if_neg hk, lookupKV, if_neg hk']
      exact ih h

/-- Updating one key leaves lookups of other keys unchanged. -/
theorem lookupKV_updateKV_ne {α : Type} (idx : List (String × α)) (key k : String)
    (nv : α) (h : k ≠ key) :
    lookupKV (updateKV idx key nv) k = lookupKV idx k := by
  induction idx with
  | nil => simp [updateKV, lookupKV, h]
  | cons p rest ih =>
    obtain ⟨pk, pv⟩ := p
    by_cases hk : pk = key
    · subst hk
      simp [updateKV, lookupKV, h]
    · by_cases hkp : k = pk
      · simp [updateKV, if_neg hk, lookupKV, hkp]
      · simp only [updateKV, if_neg hk, lookupKV, if_neg hkp]
        exact ih

/-- `add` preserves the per-key no-duplicate invariant. -/
theorem add_preserves_noDup (idx : Index) (key : String) (level depth : Int)
    (dict_ref : String) (path : StrOrList) (hinv : NoDupEntries idx) :
    NoDupEntries (add idx key level depth dict_ref path) := by
  intro k es hlk
  unfold add at hlk
  cases hidx : lookupKV idx key with
  | none =>
    rw [hidx] at hlk
    simp only [lookupKV_append] at hlk
    cases hk : lookupKV idx k with
    | none =>
      rw [hk] at hlk
      simp only [lookupKV] at hlk
      by_cases hkey : k = key
      · rw [if_pos hkey] at hlk
        cases hlk
        exact List.pairwise_singleton _ _
      · rw [if_neg hkey] at hlk
        cases hlk
    | some esk =>
      rw [hk] at hlk
      simp only [Option.some.injEq] at hlk
      subst hlk
      exact hinv k esk hk
  | some es0 =>
    rw [hidx] at hlk
    simp only at hlk
    by_cases hhas : hasEntry (mkEntry level depth dict_ref path) es0 = true
    · rw [if_pos hhas] at hlk
      exact hinv k es hlk
    · rw [if_neg hhas] at hlk
      by_cases hkey : k = key
      · subst hkey
        rw [lookupKV_updateKV_self idx k
          (es0 ++ [mkEntry level depth dict_ref path]) es0 hidx] at hlk
        cases hlk
        refine List.pairwise_append.mpr
          ⟨hinv k es0 hidx, List.pairwise_singleton _ _, ?_⟩
        intro a ha b hb
        rw [List.mem_singleton] at hb
        subst hb
        have hall : ∀ x ∈ es0,
            isSameEntry (mkEntry level depth dict_ref path) x = false := by
          intro x hx
          by_contra hcon
          exact hhas (List.any_eq_true.mpr ⟨x, hx, by
            revert hcon
            cases hval : isSameEntry (mkEntry level depth dict_ref path) x <;> simp⟩)
        have hfa := hall a ha
        rw [Bool.eq_false_iff] at hfa ⊢
        intro hcon
        refine hfa ?_
        rw [isSameEntry_iff] at hcon ⊢
        exact hcon.symm
      · rw [lookupKV_updateKV_ne idx key k
          (es0 ++ [mkEntry level depth dict_ref path]) hkey] at hlk
        exact hinv k es hlk

/-- Building an index by any sequence of `add`s preserves the invariant. -/
theorem addAll_preserves_noDup (ops : List AddOp) (idx : Index)
    (hinv : NoDupEntries idx) : NoDupEntries (addAll idx ops) := by
  induction ops generalizing idx with
  | nil => exact hinv
  | cons op rest ih =>
    exact ih _ (add_preserves_noDup idx op.key op.level op.depth op.dict_ref
      op.path hinv)

/-- C5: for every sequence of `add` operations starting from the empty index,
no key's entry list contains two entries agreeing on all four of level,
depth, dict_ref and path; and adding an entry equal to an existing one in
those four fields leaves the index unchanged. -/
theorem c5_add_no_duplicate_entries (ops : List AddOp) (k : String)
    (es : List Entry) (h : lookupKV (addAll [] ops) k = some es) :
    es.Pairwise (fun a b => isSameEntry a b = false)
    ∧ ∀ e : Entry, hasEntry e es = true →
        add (addAll [] ops) k e.level e.depth e.dict_ref (StrOrList.list e.path)
          = addAll [] ops := by
  constructor
  · refine addAll_preserves_noDup ops [] ?_ k es h
    intro k' es' h'
    cases h'
  · intro e he
    unfold add
    rw [h]
    simp only
    have hme : mkEntry e.level e.depth e.dict_ref (StrOrList.list e.path) = e := rfl
    rw [hme, if_pos he]

/-- Witness for C5: after inserting a duplicate, key `a` holds exactly the
two distinct entries, and re-adding one of them changes nothing. -/
theorem c5_add_no_duplicate_entries_witness :
    ([⟨0, 0, "f.yaml", ["p"]⟩, ⟨1, 0, "f.yaml", ["p"]⟩] : List Entry).Pairwise
        (fun a b => isSameEntry a b = false)
    ∧ add (addAll [] c5Ops) "a" 0 0 "f.yaml" (StrOrList.list ["p"])
        = addAll [] c5Ops := by
  have h := c5_add_no_duplicate_entries c5Ops "a"
      [⟨0, 0, "f.yaml", ["p"]⟩, ⟨1, 0, "f.yaml", ["p"]⟩] (by decide)
  exact ⟨h.1, h.2 ⟨0, 0, "f.yaml", ["p"]⟩ (by decide)⟩

/-- C4 counterexample: with the key absent from the index, `get` returns the
RAW default — the unexpanded string "$HOME" — although its expansion
differs, so the claim that the returned default is expanded is false. -/
theorem c4_counterexample :
    iConfigGet c4State c4Expand "missing" PathArg.null (-1) (-1) false
        (Value.str "$HOME")
      = Except.ok (Value.str "$HOME", c4State)
    ∧ expandEnv c4Expand (Value.str "$HOME") = Value.str "/home/user"
    ∧ Value.str "$HOME" ≠ Value.str "/home/user" := by
  refine ⟨rfl, rfl, ?_⟩
  intro h
  injection h with h'
  exact absurd h' (by decide)

/-- C4 (amended): whenever the resolver yields the silent `None` (key absent
from the index, or eliminated by the path or level filters), the facade's
`get` returns the caller-supplied default unexpanded, without raising and
without touching the state; expansion of the default happens only inside
`_lookup`, after an entry was found. -/
theorem c4_get_returns_raw_default_on_notfound
    (st : ConfigState) (ev : String → String) (key0 : String) (path0 : PathArg)
    (level depth : Int) (ff : Bool) (default : Value)
    (h : kiGet st.ki.index (getKeyPath key0 path0).1 (getKeyPath key0 path0).2
        level depth ff = .ok FindOk.noneFound) :
    iConfigGet st ev key0 path0 level depth ff default = .ok (default, st) := by
  unfold iConfigGet
  rw [h]

/-- Witness for C4's amended theorem at the empty-index fixture. -/
theorem c4_get_returns_raw_default_on_notfound_witness :
    iConfigGet c4State c4Expand "missing" PathArg.null (-1) (-1) false
        (Value.str "$HOME")
      = Except.ok (Value.str "$HOME", c4State) :=
  c4_get_returns_raw_default_on_notfound c4State c4Expand "missing"
    PathArg.null (-1) (-1) false (Value.str "$HOME") (by decide)

/-- C6: a `set` that resolves to an entry changes only the in-memory cache:
the filesystem component is untouched, hence `reload` — a function of the
filesystem alone — yields the same state as without the `set`, and every
subsequent `get` observes the original file-backed values. -/
theorem c6_set_in_memory_only
    (st : ConfigState) (key0 : String) (path0 : PathArg)
    (level depth : Int) (ff : Bool) (value : Value) (e : Entry)
    (st' : ConfigState)
    (hres : kiGet st.ki.index (getKeyPath key0 path0).1 (getKeyPath key0 path0).2
        level depth ff = .ok (FindOk.entry e))
    (hset : iConfigSet st key0 path0 level depth ff value = .ok st') :
    st'.fs = st.fs
    ∧ reload st' = reload st
    ∧ ∀ (ev : String → String) (k : String) (p : PathArg) (l d : Int)
        (f : Bool) (dflt : Value),
        iConfigGet (reload st') ev k p l d f dflt
          = iConfigGet (reload st) ev k p l d f dflt := by
  have hfs : st'.fs = st.fs := by
    unfold iConfigSet at hset
    rw [hres] at hset
    simp only at hset
    unfold updateNested at hset
    cases hc : lookupKV st.cfg e.dict_ref with
    | some doc =>
        rw [hc] at hset
        simp only [Except.ok.injEq] at hset
        subst hset
        rfl
    | none =>
        rw [hc] at hset
        simp only at hset
        cases hl : loadConfig st.fs.docs e.dict_ref with
        | error err =>
            rw [hl] at hset
            cases hset
        | ok doc =>
            rw [hl] at hset
            simp only [Except.ok.injEq] at hset
            subst hset
            rfl
  have hrel : reload st' = reload st := by
    unfold reload
    rw [hfs]
  exact ⟨hfs, hrel, fun ev k p l d f dflt => by rw [hrel]⟩

/-- Witness for C6: the concrete set leaves the filesystem untouched and
reload coincides with the reload of the unmodified state. -/
theorem c6_set_in_memory_only_witness :
    c6StateAfter.fs = c6State.fs ∧ reload c6StateAfter = reload c6State := by
  have h := c6_set_in_memory_only c6State "host" PathArg.null (-1) (-1) false
      (Value.int 42) ⟨0, 0, "a.yaml", []⟩ c6StateAfter (by decide) (by rfl)
  exact ⟨h.1, h.2.1⟩

/-- C7: dotted-key normalization — the last "."-separated segment becomes
the effective key and the earlier segments are prepended before any
caller-supplied path filter; consequently looking up "database.host" with
no path filter is identical, at resolver and facade level, to looking up
"host" with path ["database"]. -/
theorem c7_dot_key_normalization (key : String) (path : PathArg)
    (hdot : containsChar '.' key = true) :
    getKeyPath key path
      = ((splitOnChar '.' key).getLastD "",
         PathArg.list ((splitOnChar '.' key).dropLast
           ++ (if pathTruthy path then pathAsList path else [])))
    ∧ (∀ (index : Index) (level depth : Int) (ff ra : Bool),
        find index "database.host" PathArg.null level depth ff ra
          = find index "host" (PathArg.list ["database"]) level depth ff ra)
    ∧ (∀ (st : ConfigState) (ev : String → String) (level depth : Int)
         (ff : Bool) (dflt : Value),
        iConfigGet st ev "database.host" PathArg.null level depth ff dflt
          = iConfigGet st ev "host" (PathArg.list ["database"]) level depth
              ff dflt) := by
  refine ⟨?_, ?_, ?_⟩
  · simp only [getKeyPath, hdot, if_true]
    by_cases hp : pathTruthy path = true
    · simp [hp]
    · simp [hp]
  · intro index level depth ff ra
    have h1 : getKeyPath "database.host" PathArg.null
        = ("host", PathArg.list ["database"]) := by decide
    have h2 : getKeyPath "host" (PathArg.list ["database"])
        = ("host", PathArg.list ["database"]) := by decide
    unfold find
    rw [h1, h2]
  · intro st ev level depth ff dflt
    have h1 : getKeyPath "database.host" PathArg.null
        = ("host", PathArg.list ["database"]) := by decide
    have h2 : getKeyPath "host" (PathArg.list ["database"])
        = ("host", PathArg.list ["database"]) := by decide
    unfold iConfigGet
    rw [h1, h2]

/-- Witness for C7 at the dotted key "database.host". -/
theorem c7_dot_key_normalization_witness :
    getKeyPath "database.host" PathArg.null
      = ((splitOnChar '.' "database.host").getLastD "",
         PathArg.list ((splitOnChar '.' "database.host").dropLast
           ++ (if pathTruthy PathArg.null then pathAsList PathArg.null else []))) :=
  (c7_dot_key_normalization "database.host" PathArg.null (by decide)).1

/-- `sameKeySet` decides extensional equality of the two key sets. -/
theorem sameKeySet_iff (a b : List String) :
    sameKeySet a b = true ↔ ∀ r, r ∈ a ↔ r ∈ b := by
  unfold sameKeySet
  rw [Bool.and_eq_true]
  simp only [List.all_eq_true]
  constructor
  · rintro ⟨h1, h2⟩ r
    constructor
    · intro hr
      simpa using h1 r hr
    · intro hr
      simpa using h2 r hr
  · intro h
    constructor
    · intro r hr
      simpa using (h r).mp hr
    · intro r hr
      simpa using (h r).mpr hr

/-- C8: the freshness check triggers a full rebuild iff some discovered
dict_ref is absent from the persisted map, or a shared dict_ref's
modification time differs, or the two dict_ref sets differ; otherwise
`_update` leaves the persisted state unchanged — no partial repair. -/
theorem c8_needs_rebuild_iff (persisted discovered : List (String × FileInfo)) :
    (needsRebuild persisted discovered = true ↔
      ((∃ x ∈ discovered, lookupKV persisted x.1 = Option.none)
        ∨ (∃ x ∈ discovered, ∃ pfi : FileInfo,
            lookupKV persisted x.1 = some pfi ∧ pfi.mtime ≠ x.2.mtime)
        ∨ ¬ (∀ r : String,
              r ∈ persisted.map Prod.fst ↔ r ∈ discovered.map Prod.fst)))
    ∧ ∀ (st : KIState) (fs : FS), st.files = persisted → fs.meta = discovered →
        needsRebuild persisted discovered = false → kiUpdate st fs = st := by
  constructor
  · unfold needsRebuild
    rw [Bool.or_eq_true, List.any_eq_true, Bool.not_eq_true',
      Bool.eq_false_iff]
    constructor
    · rintro (⟨x, hx, hfx⟩ | hset)
      · rcases hp : lookupKV persisted x.1 with _ | pfi
        · exact Or.inl ⟨x, hx, hp⟩
        · rw [hp] at hfx
          simp only [bne_iff_ne, ne_eq] at hfx
          exact Or.inr (Or.inl ⟨x, hx, pfi, hp, hfx⟩)
      · refine Or.inr (Or.inr ?_)
        intro hall
        exact hset ((sameKeySet_iff _ _).mpr hall)
    · rintro (⟨x, hx, hp⟩ | ⟨x, hx, pfi, hp, hne⟩ | hset)
      · exact Or.inl ⟨x, hx, by rw [hp]⟩
      · refine Or.inl ⟨x, hx, ?_⟩
        rw [hp]
        simp only [bne_iff_ne, ne_eq]
        exact hne
      · refine Or.inr ?_
        intro hsame
        exact hset ((sameKeySet_iff _ _).mp hsame)
  · intro st fs h1 h2 hfalse
    unfold kiUpdate
    rw [h1, h2, hfalse]
    rfl

/-- Witness for C8: a changed modification time forces a rebuild. -/
theorem c8_needs_rebuild_iff_witness :
    needsRebuild [("a.yaml", ⟨"/cfg/a.yaml", 100, 0⟩)]
        [("a.yaml", ⟨"/cfg/a.yaml", 200, 0⟩)] = true := by
  have h := c8_needs_rebuild_iff [("a.yaml", ⟨"/cfg/a.yaml", 100, 0⟩)]
      [("a.yaml", ⟨"/cfg/a.yaml", 200, 0⟩)]
  exact h.1.mpr (Or.inr (Or.inl
    ⟨("a.yaml", ⟨"/cfg/a.yaml", 200, 0⟩), by decide,
     ⟨"/cfg/a.yaml", 100, 0⟩, by decide, by decide⟩))

/-- C9 counterexample: with INCONFIG_HOME unset but a "config" directory
present, construction silently succeeds — absence of the environment
variable is not fatal, contradicting the claim that it is. -/
theorem c9_counterexample :
    envUnset "INCONFIG_HOME" = Option.none
    ∧ iConfigInitBase envUnset existsOnlyConfig = Except.ok "config" :=
  ⟨rfl, rfl⟩

/-- C9 (amended): construction resolves the base directory to
INCONFIG_HOME's value, or "config" when the variable is unset, and fails
iff that base does not exist — with an error message naming both the
variable and the missing path; absence of the variable alone is not fatal. -/
theorem c9_missing_root_fatal_only_on_nonexistence
    (env : String → Option String) (pathExists : String → Bool) :
    ((∃ msg, iConfigInitBase env pathExists = .error msg)
        ↔ pathExists (facadeBase env) = false)
    ∧ (env "INCONFIG_HOME" = Option.none → facadeBase env = "config")
    ∧ (pathExists (facadeBase env) = false →
        iConfigInitBase env pathExists = .error (initErrorMsg (facadeBase env)))
    ∧ (pathExists (facadeBase env) = true →
        iConfigInitBase env pathExists = .ok (facadeBase env)) := by
  refine ⟨?_, ?_, ?_, ?_⟩
  · cases hval : pathExists (facadeBase env)
    · simp [iConfigInitBase, hval]
    · simp [iConfigInitBase, hval]
  · intro h
    unfold facadeBase
    rw [h]
    rfl
  · intro h
    simp [iConfigInitBase, h]
  · intro h
    simp [iConfigInitBase, h]

/-- Witness for C9's amended theorem: with nothing set and no existing
directory, construction fails with the message naming INCONFIG_HOME and
the "config" path. -/
theorem c9_missing_root_fatal_only_on_nonexistence_witness :
    iConfigInitBase envUnset (fun _ => false)
      = Except.error (initErrorMsg "config") :=
  (c9_missing_root_fatal_only_on_nonexistence envUnset (fun _ => false)).2.2.1 rfl

/-- C10: the facade's existence check reads INCONFIG_HOME while the KeyIndex
it constructs reads ICONFIG_HOME: with only INCONFIG_HOME set to an existing
non-default directory "mydir", construction succeeds, yet the index is built
over "config" — a different directory, which in this environment does not
even exist. -/
theorem c10_env_var_mismatch :
    facadeBase envOnlyInconfig = "mydir"
    ∧ iConfigInitBase envOnlyInconfig (fun s => s == "mydir") = Except.ok "mydir"
    ∧ kiBase Option.none envOnlyInconfig = "config"
    ∧ facadeBase envOnlyInconfig ≠ kiBase Option.none envOnlyInconfig
    ∧ (fun s => s == "mydir") (kiBase Option.none envOnlyInconfig) = false := by
  exact ⟨rfl, rfl, rfl, by decide, rfl⟩
